import Mathlib

/-!
Shallow embedding of `src/analyzer.mjs` (a CLI feedback classifier).

The remote HTTP calls are modelled by passing the remote response
explicitly: every function that in the source awaits `callModel` here
takes the `HttpResp` that the remote endpoint would have produced.
JavaScript `undefined` values (a missing `score` / `label`) are modelled
as `none`; JavaScript numbers are modelled as `ℚ`.
-/

namespace Analyzer

/-- A label/score pair as the remote models produce it and as
`getIntent` builds it (source line 83).  `score` is `none` where the
JavaScript value would be `undefined`. -/
structure Entry where
  label : String
  score : Option ℚ
deriving DecidableEq, Repr

/-- The value returned by `getSentiment` (source line 64):
`{ label: top.label, score: top.score }`.  Both fields can be
`undefined` in JavaScript (when `top` is not a label/score object),
hence the `Option`s. -/
structure SentimentResult where
  label : Option String
  score : Option ℚ
deriving DecidableEq, Repr

/-- One element of the JSON array returned by the sentiment endpoint:
either a label/score object or a nested array of such objects
(the spec's two response shapes, source line 61). -/
inductive SentItem where
  | ent (e : Entry)
  | arr (l : List Entry)
deriving DecidableEq, Repr

/-- Errors the pipeline can raise.
`remote s b` models the `throw new Error(\x7bHTTP status → body\x7d)` of
`callModel` (source line 49) and carries the HTTP status and body text;
`typeError` models the uncontrolled JavaScript `TypeError` raised by
reading a property of `undefined`. -/
inductive AnalyzerError where
  | remote (status : Nat) (body : String)
  | typeError
deriving DecidableEq, Repr

/-- An HTTP response as `callModel` consumes it: `ok`/`status`/`text`
from the fetch response, and `json` the decoded body (parametrised by
the shape the caller expects). -/
structure HttpResp (α : Type) where
  ok : Bool
  status : Nat
  text : String
  json : α

/-- The JSON body of the zero-shot intent endpooint: two parallel
sequences, either of which may be absent (source lines 79-80). -/
structure IntentResponse where
  labels : Option (List String)
  scores : Option (List ℚ)

/-- The record assembled by `analyze` (source lines 115-120). -/
structure AnalysisResult where
  input : String
  sentiment : SentimentResult
  intents_ranked : List Entry
  feedback_bucket : String
deriving DecidableEq, Repr

/-- Source lines 35-53: on a non-2xx response `callModel` throws an
error carrying the HTTP status and the response body text; otherwise it
returns the decoded JSON. -/
def callModel {α : Type} (res : HttpResp α) : Except AnalyzerError α :=
  if res.ok = false then Except.error (AnalyzerError.remote res.status res.text)
  else Except.ok res.json

/-- JavaScript `cur.score` for an array element: `undefined` when the
element is itself an array. -/
def itemScore : SentItem → Option ℚ
  | SentItem.ent e => e.score
  | SentItem.arr _ => none

/-- JavaScript `cur.label` for an array element. -/
def itemLabel : SentItem → Option String
  | SentItem.ent e => some e.label
  | SentItem.arr _ => none

/-- JavaScript `x > y` on possibly-`undefined` numbers: any comparison
involving `undefined` is `NaN > _` and yields `false`. -/
def jsGt : Option ℚ → Option ℚ → Bool
  | some a, some b => decide (b < a)
  | _, _ => false

/-- Source line 61:
`Array.isArray(data) && Array.isArray(data[0]) ? data[0] : data`.
`data` is always an array here, so only the first element is tested. -/
def unwrapSent : List SentItem → List SentItem
  | SentItem.arr l :: _ => l.map SentItem.ent
  | data => data

/-- The reducer of source line 62:
`(best, cur) => (cur.score > best.score ? cur : best)`. -/
def sentStep (best cur : SentItem) : SentItem :=
  if jsGt (itemScore cur) (itemScore best) then cur else best

/-- Source lines 61-64, the part of `getSentiment` that runs on the
decoded JSON.  `arr.reduce(f, arr[0])` folds `f` over the whole array
starting from `arr[0]`; on an empty array `arr[0]` is `undefined` and
the subsequent `top.label` access raises a `TypeError`. -/
def getSentimentCore (data : List SentItem) : Except AnalyzerError SentimentResult :=
  match unwrapSent data with
  | [] => Except.error AnalyzerError.typeError
  | a :: rest =>
      Except.ok ⟨itemLabel ((a :: rest).foldl sentStep a),
                 itemScore ((a :: rest).foldl sentStep a)⟩

/-- Source lines 58-65: `getSentiment` awaits `callModel` (propagating
its error) and then post-processes the JSON. -/
def getSentiment (res : HttpResp (List SentItem)) : Except AnalyzerError SentimentResult :=
  match callModel res with
  | Except.error e => Except.error e
  | Except.ok data => getSentimentCore data

/-- The sort comparator of source line 84, `(a, b) => b.score - a.score`,
read as "`a` need not come after `b`": true when `a.score ≥ b.score`,
and also true when either score is `undefined` (the subtraction is `NaN`,
which the sort treats as `0`, i.e. equal). -/
def optGe : Option ℚ → Option ℚ → Bool
  | some a, some b => decide (b ≤ a)
  | _, _ => true

/-- Insert one element into an already sorted list, after every element
it does not strictly precede.  Together with `sortDesc` this is the
stable descending sort that `Array.prototype.sort` with the comparator
of source line 84 performs (ECMAScript sorts are stable). -/
def insertDesc (e : Entry) : List Entry → List Entry
  | [] => [e]
  | x :: xs => if optGe e.score x.score then e :: x :: xs else x :: insertDesc e xs

/-- Stable descending-by-score sort (source line 84). -/
def sortDesc : List Entry → List Entry
  | [] => []
  | e :: es => insertDesc e (sortDesc es)

/-- Source line 83: `labels.map((l, i) => ({ label: l, score: scores[i] }))`.
The index runs over `labels`; `scores[i]` is `undefined` (`none`) past
the end of `scores`. -/
def pairWithScores (scores : List ℚ) : List String → Nat → List Entry
  | [], _ => []
  | l :: ls, i => ⟨l, scores.get? i⟩ :: pairWithScores scores ls (i + 1)

/-- Source lines 79-86, the part of `getIntent` that runs on the decoded
JSON: `data.labels || []` and `data.scores || []` default absent fields
to empty arrays, then the label-indexed pairing is sorted by descending
score. -/
def getIntentCore (data : IntentResponse) : List Entry :=
  sortDesc (pairWithScores (data.scores.getD []) (data.labels.getD []) 0)

/-- Source lines 70-87: `getIntent` awaits `callModel` (propagating its
error) and then post-processes the JSON. -/
def getIntent (res : HttpResp IntentResponse) : Except AnalyzerError (List Entry) :=
  match callModel res with
  | Except.error e => Except.error e
  | Except.ok data => Except.ok (getIntentCore data)

/-- JavaScript `i.score >= 0.35` (source line 93): `false` when the
score is `undefined`. -/
def scoreAtLeast (q : ℚ) (i : Entry) : Bool :=
  match i.score with
  | some s => decide (q ≤ s)
  | none => false

/-- Source line 93: `intents.filter(i => i.score >= 0.35).slice(0, 3)`,
the "active intent set".  The decimal literal `0.35` is rendered as the
rational `mkRat 35 100`. -/
def activeIntents (intents : List Entry) : List Entry :=
  (intents.filter (scoreAtLeast (mkRat 35 100))).take 3

/-- Source lines 92-105: the feedback bucket priority cascade over the
active intent names and the sentiment label. -/
def getFeedbackBucket (sentiment : Option String) (intents : List Entry) : String :=
  let names := (activeIntents intents).map Entry.label
  if names.contains "complaint" || sentiment == some "negative" then "complaint"
  else if names.contains "bug_report" then "bug_report"
  else if names.contains "refund" || names.contains "cancel_order" then "refund/cancellation"
  else if names.contains "feature_request" then "suggestion"
  else if names.contains "praise" || sentiment == some "positive" then "praise"
  else if names.contains "question" then "question"
  else "other"

/-- Source lines 110-121: the pipeline awaits `getSentiment`, then
`getIntent` (each `await` propagates a thrown error and aborts the
whole analysis), then assembles the result record. -/
def analyze (text : String) (sres : HttpResp (List SentItem)) (ires : HttpResp IntentResponse) :
    Except AnalyzerError AnalysisResult :=
  match getSentiment sres with
  | Except.error e => Except.error e
  | Except.ok sentiment =>
      match getIntent ires with
      | Except.error e => Except.error e
      | Except.ok intents =>
          Except.ok ⟨text, sentiment, intents.take 5,
                     getFeedbackBucket sentiment.label intents⟩

/-! ### Helper lemmas about the Feedback Bucketer -/

lemma bucket_eq_of_active_eq (s : Option String) (l₁ l₂ : List Entry)
    (h : activeIntents l₁ = activeIntents l₂) :
    getFeedbackBucket s l₁ = getFeedbackBucket s l₂ := by
  unfold getFeedbackBucket
  rw [h]

/-- C1: for every sentiment label and every ranked intent list, the
Feedback Bucketer returns `"complaint"` whenever the active intent set
(score ≥ 0.35, first 3) contains the label `"complaint"` or the
sentiment label equals `"negative"`; being the first rule of the
cascade, this holds with no further condition on the rest of the active
set (in particular also when `"praise"` is present). -/
theorem complaint_rule_precedence (s : Option String) (l : List Entry)
    (h : "complaint" ∈ (activeIntents l).map Entry.label ∨ s = some "negative") :
    getFeedbackBucket s l = "complaint" := by
  have hc : (((activeIntents l).map Entry.label).contains "complaint"
      || s == some "negative") = true := by
    rw [Bool.or_eq_true]
    rcases h with h | h
    · left
      simpa using h
    · right
      simp [h]
  simp only [getFeedbackBucket, hc]
  simp

/-- C1 witness: the spec's P4 example — active intents praise(0.8) and
complaint(0.4) with sentiment "negative" bucket to "complaint". -/
theorem complaint_rule_precedence_witness :
    ("complaint" ∈ (activeIntents
        [⟨"praise", some (mkRat 8 10)⟩, ⟨"complaint", some (mkRat 4 10)⟩]).map Entry.label
      ∨ (some "negative" : Option String) = some "negative")
    ∧ getFeedbackBucket (some "negative")
        [⟨"praise", some (mkRat 8 10)⟩, ⟨"complaint", some (mkRat 4 10)⟩] = "complaint" :=
  ⟨Or.inl (by decide),
   complaint_rule_precedence (some "negative")
     [⟨"praise", some (mkRat 8 10)⟩, ⟨"complaint", some (mkRat 4 10)⟩] (Or.inl (by decide))⟩

/-- C2: the bucket decision depends only on the entries with score
≥ 0.35 capped at the first 3 such entries in list order: (i) two intent
lists with the same active set bucket identically, (ii) removing an
entry scoring below 0.35 anywhere never changes the bucket, and
(iii) once 3 entries survive the filter, any entries appended after
them (e.g. a 4th-ranked complaint) never change the bucket. -/
theorem bucket_depends_only_on_active_set (s : Option String) (l₁ l₂ : List Entry)
    (e : Entry) (q : ℚ) (extra : List Entry) :
    (activeIntents l₁ = activeIntents l₂ → getFeedbackBucket s l₁ = getFeedbackBucket s l₂)
    ∧ (e.score = some q → q < mkRat 35 100 →
        getFeedbackBucket s (l₁ ++ e :: l₂) = getFeedbackBucket s (l₁ ++ l₂))
    ∧ (3 ≤ (l₁.filter (scoreAtLeast (mkRat 35 100))).length →
        getFeedbackBucket s (l₁ ++ extra) = getFeedbackBucket s l₁) := by
  refine ⟨bucket_eq_of_active_eq s l₁ l₂, fun hs hq => ?_, fun hlen => ?_⟩
  · apply bucket_eq_of_active_eq
    have hf : scoreAtLeast (mkRat 35 100) e = false := by
      simp [scoreAtLeast, hs, not_le]
      exact hq
    unfold activeIntents
    rw [List.filter_append, List.filter_append, List.filter_cons_of_neg (by simp [hf])]
  · apply bucket_eq_of_active_eq
    unfold activeIntents
    rw [List.filter_append, List.take_append_eq_append_take,
      Nat.sub_eq_zero_of_le hlen]
    simp

/-- C2 witness: with three surviving 0.40-entries, a below-threshold
complaint(0.30) inserted in the middle and a complaint(0.40) appended
4th both leave the bucket unchanged. -/
theorem bucket_depends_only_on_active_set_witness :
    (getFeedbackBucket (some "neutral")
        ([⟨"praise", some (mkRat 2 5)⟩, ⟨"b", some (mkRat 2 5)⟩, ⟨"c", some (mkRat 2 5)⟩])
      = getFeedbackBucket (some "neutral")
        ([⟨"praise", some (mkRat 2 5)⟩, ⟨"b", some (mkRat 2 5)⟩, ⟨"c", some (mkRat 2 5)⟩,
          ⟨"x", some (mkRat 1 10)⟩]))
    ∧ (getFeedbackBucket (some "neutral")
        ([⟨"praise", some (mkRat 2 5)⟩] ++ ⟨"complaint", some (mkRat 3 10)⟩ ::
          [⟨"b", some (mkRat 2 5)⟩, ⟨"c", some (mkRat 2 5)⟩, ⟨"x", some (mkRat 1 10)⟩])
      = getFeedbackBucket (some "neutral")
        ([⟨"praise", some (mkRat 2 5)⟩] ++
          [⟨"b", some (mkRat 2 5)⟩, ⟨"c", some (mkRat 2 5)⟩, ⟨"x", some (mkRat 1 10)⟩]))
    ∧ (getFeedbackBucket (some "neutral")
        ([⟨"praise", some (mkRat 2 5)⟩, ⟨"b", some (mkRat 2 5)⟩, ⟨"c", some (mkRat 2 5)⟩] ++
          [⟨"complaint", some (mkRat 2 5)⟩])
      = getFeedbackBucket (some "neutral")
        [⟨"praise", some (mkRat 2 5)⟩, ⟨"b", some (mkRat 2 5)⟩, ⟨"c", some (mkRat 2 5)⟩]) := by
  have h := bucket_depends_only_on_active_set (some "neutral")
    [⟨"praise", some (mkRat 2 5)⟩, ⟨"b", some (mkRat 2 5)⟩, ⟨"c", some (mkRat 2 5)⟩]
    [⟨"praise", some (mkRat 2 5)⟩, ⟨"b", some (mkRat 2 5)⟩, ⟨"c", some (mkRat 2 5)⟩,
      ⟨"x", some (mkRat 1 10)⟩]
    ⟨"complaint", some (mkRat 3 10)⟩ (mkRat 3 10)
    [⟨"complaint", some (mkRat 2 5)⟩]
  have h2 := bucket_depends_only_on_active_set (some "neutral")
    [⟨"praise", some (mkRat 2 5)⟩]
    [⟨"b", some (mkRat 2 5)⟩, ⟨"c", some (mkRat 2 5)⟩, ⟨"x", some (mkRat 1 10)⟩]
    ⟨"complaint", some (mkRat 3 10)⟩ (mkRat 3 10) []
  exact ⟨h.1 (by decide), h2.2.1 rfl (by decide), h.2.2 (by decide)⟩

/-! ### Helper lemmas about the Sentiment Extractor

The reducer of source line 62, restricted to genuine label/score pairs,
is mirrored by `pairStep`/`redMax` on `String × ℚ`; `maxFrom x l` is the
maximum of `x` and the scores in `l`. -/

def pairStep (b c : String × ℚ) : String × ℚ :=
  if b.2 < c.2 then c else b

def redMax (a : String × ℚ) (l : List (String × ℚ)) : String × ℚ :=
  l.foldl pairStep a

def maxFrom (x : ℚ) (l : List (String × ℚ)) : ℚ :=
  l.foldl (fun m q => max m q.2) x

lemma maxFrom_cons (x : ℚ) (c : String × ℚ) (cs : List (String × ℚ)) :
    maxFrom x (c :: cs) = maxFrom (max x c.2) cs := rfl

lemma le_maxFrom (l : List (String × ℚ)) (x : ℚ) : x ≤ maxFrom x l := by
  induction l generalizing x with
  | nil => exact le_refl x
  | cons c cs ih => exact le_trans (le_max_left x c.2) (ih (max x c.2))

lemma pairStep_snd (a c : String × ℚ) : (pairStep a c).2 = max a.2 c.2 := by
  unfold pairStep
  by_cases h : a.2 < c.2
  · rw [if_pos h, max_eq_right h.le]
  · rw [if_neg h, max_eq_left (not_lt.mp h)]

lemma find?_cons_false {α : Type} (p : α → Bool) (a : α) (l : List α) (h : p a = false) :
    (a :: l).find? p = l.find? p := by
  simp [List.find?_cons, h]

lemma find?_cons_true {α : Type} (p : α → Bool) (a : α) (l : List α) (h : p a = true) :
    (a :: l).find? p = some a := by
  simp [List.find?_cons, h]

/-- The JavaScript `reduce` of line 62 returns the first entry whose
score is the maximum: `find?` for the maximum score finds exactly the
reduce result. -/
lemma find_redMax : ∀ (l : List (String × ℚ)) (a : String × ℚ),
    (a :: l).find? (fun r => r.2 == maxFrom a.2 l) = some (redMax a l) := by
  intro l
  induction l with
  | nil =>
    intro a
    simp [redMax, maxFrom]
  | cons c cs ih =>
    intro a
    have hred : redMax a (c :: cs) = redMax (pairStep a c) cs := rfl
    by_cases h : a.2 < c.2
    · have hps : pairStep a c = c := if_pos h
      have hM : maxFrom a.2 (c :: cs) = maxFrom c.2 cs := by
        rw [maxFrom_cons, max_eq_right h.le]
      have ha : (a.2 == maxFrom a.2 (c :: cs)) = false := by
        rw [hM]
        exact beq_eq_false_iff_ne.mpr (ne_of_lt (lt_of_lt_of_le h (le_maxFrom cs c.2)))
      rw [hred, hps]
      rw [find?_cons_false (fun r : String × ℚ => r.2 == maxFrom a.2 (c :: cs)) a (c :: cs) ha]
      rw [show (fun r : String × ℚ => r.2 == maxFrom a.2 (c :: cs))
            = fun r : String × ℚ => r.2 == maxFrom c.2 cs by rw [hM]]
      exact ih c
    · have hps : pairStep a c = a := if_neg h
      have hM : maxFrom a.2 (c :: cs) = maxFrom a.2 cs := by
        rw [maxFrom_cons, max_eq_left (not_lt.mp h)]
      rw [hred, hps, hM]
      by_cases ha : a.2 = maxFrom a.2 cs
      · have hfa : (a.2 == maxFrom a.2 cs) = true := beq_iff_eq.mpr ha
        have h1 : (a :: c :: cs).find? (fun r => r.2 == maxFrom a.2 cs) = some a :=
          List.find?_cons_of_pos _ hfa
        have h2 : (a :: cs).find? (fun r => r.2 == maxFrom a.2 cs) = some a :=
          List.find?_cons_of_pos _ hfa
        rw [h1, ← h2, ih a]
      · have hfa : (a.2 == maxFrom a.2 cs) = false := beq_eq_false_iff_ne.mpr ha
        have haM : a.2 < maxFrom a.2 cs := lt_of_le_of_ne (le_maxFrom cs a.2) ha
        have hfc : (c.2 == maxFrom a.2 cs) = false :=
          beq_eq_false_iff_ne.mpr (ne_of_lt (lt_of_le_of_lt (not_lt.mp h) haM))
        rw [find?_cons_false (fun r : String × ℚ => r.2 == maxFrom a.2 cs) a (c :: cs) hfa]
        rw [find?_cons_false (fun r : String × ℚ => r.2 == maxFrom a.2 cs) c cs hfc]
        have h3 := ih a
        rw [find?_cons_false (fun r : String × ℚ => r.2 == maxFrom a.2 cs) a cs hfa] at h3
        exact h3

lemma sentStep_self (x : SentItem) : sentStep x x = x := by
  have hj : jsGt (itemScore x) (itemScore x) = false := by
    unfold jsGt
    cases itemScore x with
    | none => rfl
    | some a => simp
  simp [sentStep, hj]

/-- Folding the source reducer over embedded genuine pairs agrees with
`redMax`. -/
lemma foldl_embed : ∀ (l : List (String × ℚ)) (a : String × ℚ),
    (l.map (fun p => SentItem.ent ⟨p.1, some p.2⟩)).foldl sentStep (SentItem.ent ⟨a.1, some a.2⟩)
      = SentItem.ent ⟨(redMax a l).1, some (redMax a l).2⟩ := by
  intro l
  induction l with
  | nil => intro a; rfl
  | cons c cs ih =>
    intro a
    have hstep : sentStep (SentItem.ent ⟨a.1, some a.2⟩) (SentItem.ent ⟨c.1, some c.2⟩)
        = SentItem.ent ⟨(pairStep a c).1, some (pairStep a c).2⟩ := by
      unfold sentStep pairStep itemScore jsGt
      by_cases h : a.2 < c.2 <;> simp [h]
    simp only [List.map_cons, List.foldl_cons, hstep]
    exact ih (pairStep a c)

/-- C3: on a non-empty response of genuine label/score entries,
`getSentiment` unwraps a nested response (first element an array) to its
inner array, treats a flat response as-is, and returns the
first-encountered entry attaining the maximum score (stable max). -/
theorem sentiment_unwrap_and_stable_max (p : String × ℚ) (ps : List (String × ℚ))
    (rest : List SentItem) :
    getSentimentCore
        (SentItem.arr ((p :: ps).map (fun r => Entry.mk r.1 (some r.2))) :: rest)
      = getSentimentCore ((p :: ps).map (fun r => SentItem.ent ⟨r.1, some r.2⟩))
    ∧ ∃ q, (p :: ps).find? (fun r => r.2 == maxFrom p.2 ps) = some q
        ∧ q.2 = maxFrom p.2 ps
        ∧ getSentimentCore ((p :: ps).map (fun r => SentItem.ent ⟨r.1, some r.2⟩))
            = Except.ok ⟨some q.1, some q.2⟩ := by
  have heval : getSentimentCore ((p :: ps).map (fun r => SentItem.ent ⟨r.1, some r.2⟩))
      = Except.ok ⟨some (redMax p ps).1, some (redMax p ps).2⟩ := by
    show getSentimentCore
        (SentItem.ent ⟨p.1, some p.2⟩ :: ps.map (fun r => SentItem.ent ⟨r.1, some r.2⟩)) = _
    unfold getSentimentCore
    rw [show unwrapSent
          (SentItem.ent ⟨p.1, some p.2⟩ :: ps.map (fun r => SentItem.ent ⟨r.1, some r.2⟩))
        = SentItem.ent ⟨p.1, some p.2⟩ :: ps.map (fun r => SentItem.ent ⟨r.1, some r.2⟩)
        from rfl]
    simp only [List.foldl_cons, sentStep_self, foldl_embed]
    rfl
  constructor
  · unfold getSentimentCore
    rw [show unwrapSent
          (SentItem.arr ((p :: ps).map (fun r => Entry.mk r.1 (some r.2))) :: rest)
        = ((p :: ps).map (fun r => Entry.mk r.1 (some r.2))).map SentItem.ent from rfl]
    rw [show unwrapSent ((p :: ps).map (fun r => SentItem.ent ⟨r.1, some r.2⟩))
        = (p :: ps).map (fun r => SentItem.ent ⟨r.1, some r.2⟩) from rfl]
    rw [List.map_map]
    rfl
  · refine ⟨redMax p ps, find_redMax ps p, ?_, heval⟩
    have h := List.find?_some (find_redMax ps p)
    simpa using h

/-- C5 counterexample: an entry lacking a numeric score does NOT make
`getSentiment` fail (the claim says it must fail with a
`MalformedResponseError`): the code performs no validation and returns a
result whose `score` is `undefined`. -/
theorem sentiment_missing_score_no_failure :
    getSentimentCore [SentItem.ent ⟨"a", none⟩] = Except.ok ⟨some "a", none⟩ := rfl

/-- C5 amended: `getSentiment` fails exactly when the possibly-unwrapped
response array is empty, and then with the uncontrolled `TypeError` of
reading a property of `undefined` (the code defines no
`MalformedResponseError`); entries lacking a numeric score never cause a
failure. -/
theorem sentiment_fails_iff_empty (data : List SentItem) :
    ((∃ e, getSentimentCore data = Except.error e) ↔ unwrapSent data = [])
    ∧ (unwrapSent data = [] →
        getSentimentCore data = Except.error AnalyzerError.typeError) := by
  unfold getSentimentCore
  rcases h : unwrapSent data with _ | ⟨a, rest⟩ <;> simp [h]

/-- C5 amended witness: the empty response evaluates to the TypeError
failure. -/
theorem sentiment_fails_iff_empty_witness :
    getSentimentCore [] = Except.error AnalyzerError.typeError :=
  (sentiment_fails_iff_empty []).2 rfl

/-! ### Helper lemmas about the Intent Ranker's sort -/

lemma optGe_trans {a b c : Option ℚ} (ha : a.isSome = true) (hb : b.isSome = true)
    (hc : c.isSome = true) (h₁ : optGe a b = true) (h₂ : optGe b c = true) :
    optGe a c = true := by
  obtain ⟨x, rfl⟩ := Option.isSome_iff_exists.mp ha
  obtain ⟨y, rfl⟩ := Option.isSome_iff_exists.mp hb
  obtain ⟨z, rfl⟩ := Option.isSome_iff_exists.mp hc
  simp only [optGe, decide_eq_true_eq] at h₁ h₂ ⊢
  exact le_trans h₂ h₁

lemma optGe_flip {a b : Option ℚ} (h : ¬ optGe a b = true) : optGe b a = true := by
  cases a with
  | none => simp [optGe] at h
  | some x =>
    cases b with
    | none => simp [optGe] at h
    | some y =>
      simp only [optGe, decide_eq_true_eq] at h ⊢
      exact le_of_not_le h

lemma insertDesc_perm (e : Entry) : ∀ l : List Entry, (insertDesc e l).Perm (e :: l) := by
  intro l
  induction l with
  | nil => exact List.Perm.refl _
  | cons x xs ih =>
    simp only [insertDesc]
    by_cases h : optGe e.score x.score = true
    · rw [if_pos h]
    · rw [if_neg h]
      exact (List.Perm.cons x ih).trans (List.Perm.swap e x xs)

lemma sortDesc_perm : ∀ l : List Entry, (sortDesc l).Perm l := by
  intro l
  induction l with
  | nil => exact List.Perm.refl _
  | cons e es ih =>
    simp only [sortDesc]
    exact (insertDesc_perm e (sortDesc es)).trans (List.Perm.cons e ih)

lemma insertDesc_pairwise (e : Entry) : ∀ l : List Entry,
    (∀ x ∈ e :: l, (Entry.score x).isSome = true) →
    l.Pairwise (fun a b => optGe a.score b.score = true) →
    (insertDesc e l).Pairwise (fun a b => optGe a.score b.score = true) := by
  intro l
  induction l with
  | nil =>
    intro _ _
    simp [insertDesc]
  | cons x xs ih =>
    intro hs hl
    have hse : (Entry.score e).isSome = true := hs e (by simp)
    have hsx : (Entry.score x).isSome = true := hs x (by simp)
    obtain ⟨hxl, hxs⟩ := List.pairwise_cons.mp hl
    simp only [insertDesc]
    by_cases h : optGe e.score x.score = true
    · rw [if_pos h]
      rw [List.pairwise_cons]
      refine ⟨?_, hl⟩
      intro b hb
      rcases List.mem_cons.mp hb with rfl | hbxs
      · exact h
      · exact optGe_trans hse hsx (hs b (by simp [hbxs])) h (hxl b hbxs)
    · rw [if_neg h]
      rw [List.pairwise_cons]
      constructor
      · intro b hb
        have hmem : b ∈ e :: xs := (insertDesc_perm e xs).mem_iff.mp hb
        rcases List.mem_cons.mp hmem with rfl | hbxs
        · exact optGe_flip h
        · exact hxl b hbxs
      · refine ih ?_ hxs
        intro y hy
        rcases List.mem_cons.mp hy with rfl | hyxs
        · exact hse
        · exact hs y (by simp [hyxs])

lemma sortDesc_pairwise : ∀ l : List Entry,
    (∀ x ∈ l, (Entry.score x).isSome = true) →
    (sortDesc l).Pairwise (fun a b => optGe a.score b.score = true) := by
  intro l
  induction l with
  | nil =>
    intro _
    simp [sortDesc]
  | cons e es ih =>
    intro hs
    simp only [sortDesc]
    apply insertDesc_pairwise
    · intro x hx
      rcases List.mem_cons.mp hx with rfl | hxs
      · exact hs x (by simp)
      · exact hs x (by simp [(sortDesc_perm es).mem_iff.mp hxs])
    · exact ih (fun y hy => hs y (by simp [hy]))

lemma insertDesc_filter (v : ℚ) (e : Entry) : ∀ l : List Entry,
    (insertDesc e l).filter (fun x => Entry.score x == some v)
      = if (Entry.score e == some v) = true
        then e :: l.filter (fun x => Entry.score x == some v)
        else l.filter (fun x => Entry.score x == some v) := by
  intro l
  induction l with
  | nil =>
    by_cases hP : (Entry.score e == some v) = true <;>
      simp [insertDesc, List.filter_cons, hP]
  | cons x xs ih =>
    simp only [insertDesc]
    by_cases h : optGe e.score x.score = true
    · rw [if_pos h]
      by_cases hP : (Entry.score e == some v) = true <;>
        simp [List.filter_cons, hP]
    · rw [if_neg h]
      by_cases hP : (Entry.score e == some v) = true
      · have hPx : (Entry.score x == some v) = false := by
          cases hex : Entry.score e with
          | none => rw [hex] at hP; simp at hP
          | some q =>
            cases hxx : Entry.score x with
            | none => rw [hex, hxx] at h; simp [optGe] at h
            | some r =>
              rw [hex] at hP
              have hqv : q = v := by simpa using hP
              rw [hex, hxx] at h
              have hqr : ¬ (r ≤ q) := by simpa [optGe] using h
              rw [beq_eq_false_iff_ne]
              intro hrv
              exact hqr (le_of_eq ((Option.some.inj hrv).trans hqv.symm))
        simp [List.filter_cons, hPx, hP, ih]
      · simp [List.filter_cons, hP, ih]

lemma sortDesc_filter (v : ℚ) : ∀ l : List Entry,
    (sortDesc l).filter (fun x => Entry.score x == some v)
      = l.filter (fun x => Entry.score x == some v) := by
  intro l
  induction l with
  | nil => rfl
  | cons e es ih =>
    simp only [sortDesc]
    rw [insertDesc_filter]
    by_cases hP : (Entry.score e == some v) = true <;>
      simp [List.filter_cons, hP, ih]

lemma pairWithScores_length (scores : List ℚ) : ∀ (labels : List String) (i : Nat),
    (pairWithScores scores labels i).length = labels.length := by
  intro labels
  induction labels with
  | nil => intro i; rfl
  | cons l ls ih =>
    intro i
    simp [pairWithScores, ih]

lemma pairWithScores_isSome (scores : List ℚ) : ∀ (labels : List String) (i : Nat),
    labels.length + i ≤ scores.length →
    ∀ e ∈ pairWithScores scores labels i, (Entry.score e).isSome = true := by
  intro labels
  induction labels with
  | nil =>
    intro i _ e he
    simp [pairWithScores] at he
  | cons l ls ih =>
    intro i hlen e he
    rcases List.mem_cons.mp he with rfl | hes
    · have hi : i < scores.length := by
        simp only [List.length_cons] at hlen
        omega
      simp [List.get?_eq_getElem?, List.getElem?_eq_getElem hi]
    · exact ih (i + 1) (by simp only [List.length_cons] at hlen; omega) e hes

lemma pairWithScores_empty_scores : ∀ (labels : List String) (i : Nat),
    ∀ e ∈ pairWithScores [] labels i, Entry.score e = none := by
  intro labels
  induction labels with
  | nil =>
    intro i e he
    simp [pairWithScores] at he
  | cons l ls ih =>
    intro i e he
    rcases List.mem_cons.mp he with rfl | hes
    · rfl
    · exact ih (i + 1) e hes

/-- C10: the Feedback Bucketer is a total function whose result always
lies in the closed 7-element bucket set, for every sentiment label
(including `undefined` and labels outside the model vocabulary) and
every intent list. -/
theorem bucket_total_closed_range (s : Option String) (l : List Entry) :
    getFeedbackBucket s l ∈
      ["complaint", "bug_report", "refund/cancellation", "suggestion",
       "praise", "question", "other"] := by
  simp only [getFeedbackBucket]
  split_ifs <;> simp

/-- C4 counterexample: with `labels = ["a","b"]` and `scores = [1/2]`
`getIntent` returns TWO entries, the second with an `undefined` score —
the claim's "truncate to the shorter sequence" and "no returned entry is
ever missing a score" are both false; and with `labels = ["a"]` and
`scores` absent it still produces one (score-less) entry rather than
none. -/
theorem intent_pairing_truncation_counterexample :
    getIntentCore ⟨some ["a", "b"], some [mkRat 1 2]⟩
        = [⟨"a", some (mkRat 1 2)⟩, ⟨"b", none⟩]
    ∧ getIntentCore ⟨some ["a"], none⟩ = [⟨"a", none⟩] :=
  ⟨rfl, rfl⟩

/-- C4 amended: `getIntent` pairs index-wise over the LABELS sequence:
the output is (a descending reordering of) one entry per label, so its
length always equals the labels length; an absent `labels` field yields
no entries, while labels whose index is beyond the scores sequence
(in particular all of them when `scores` is absent) receive an
`undefined` score instead of being dropped; extra scores beyond the
labels are ignored. -/
theorem intent_pairing_by_labels (data : IntentResponse) :
    (getIntentCore data).Perm
        (pairWithScores (data.scores.getD []) (data.labels.getD []) 0)
    ∧ (getIntentCore data).length = (data.labels.getD []).length
    ∧ (data.labels = none → getIntentCore data = [])
    ∧ (data.scores = none → ∀ e ∈ getIntentCore data, Entry.score e = none) := by
  have hperm := sortDesc_perm (pairWithScores (data.scores.getD []) (data.labels.getD []) 0)
  refine ⟨hperm, ?_, ?_, ?_⟩
  · rw [getIntentCore, hperm.length_eq, pairWithScores_length]
  · intro h
    simp [getIntentCore, h, pairWithScores, sortDesc]
  · intro h e he
    have he' : e ∈ pairWithScores (data.scores.getD []) (data.labels.getD []) 0 :=
      hperm.mem_iff.mp he
    rw [h] at he'
    exact pairWithScores_empty_scores (data.labels.getD []) 0 e he'

/-- C4 amended witness: an absent labels field produces the empty
ranking. -/
theorem intent_pairing_by_labels_witness :
    getIntentCore ⟨none, some [mkRat 1 2]⟩ = [] :=
  (intent_pairing_by_labels ⟨none, some [mkRat 1 2]⟩).2.2.1 rfl

/-- C7: on parallel `labels`/`scores` of equal length, `getIntent`
returns a permutation of the index-wise pairs, sorted by descending
score, and stably so: for every score value the entries carrying it
appear in their original pairing order (`filter` by each score value is
preserved). -/
theorem intent_sort_descending_stable (labels : List String) (scores : List ℚ)
    (h : labels.length = scores.length) :
    (getIntentCore ⟨some labels, some scores⟩).Perm (pairWithScores scores labels 0)
    ∧ (∀ e ∈ getIntentCore ⟨some labels, some scores⟩, (Entry.score e).isSome = true)
    ∧ (getIntentCore ⟨some labels, some scores⟩).Pairwise
        (fun a b => (Entry.score b).getD 0 ≤ (Entry.score a).getD 0)
    ∧ ∀ v : ℚ, (getIntentCore ⟨some labels, some scores⟩).filter
          (fun e => Entry.score e == some v)
        = (pairWithScores scores labels 0).filter (fun e => Entry.score e == some v) := by
  have hpair : ∀ e ∈ pairWithScores scores labels 0, (Entry.score e).isSome = true :=
    pairWithScores_isSome scores labels 0 (by omega)
  have hcore : getIntentCore ⟨some labels, some scores⟩
      = sortDesc (pairWithScores scores labels 0) := rfl
  have hperm : (sortDesc (pairWithScores scores labels 0)).Perm
      (pairWithScores scores labels 0) := sortDesc_perm _
  have hmem : ∀ e ∈ sortDesc (pairWithScores scores labels 0), (Entry.score e).isSome = true :=
    fun e he => hpair e (hperm.mem_iff.mp he)
  refine ⟨hcore ▸ hperm, hcore ▸ hmem, ?_, fun v => hcore ▸ sortDesc_filter v _⟩
  rw [hcore]
  have hp := sortDesc_pairwise _ hpair
  refine hp.imp_of_mem ?_
  intro a b ha hb hR
  obtain ⟨x, hx⟩ := Option.isSome_iff_exists.mp (hmem a ha)
  obtain ⟨y, hy⟩ := Option.isSome_iff_exists.mp (hmem b hb)
  rw [hx, hy] at hR ⊢
  simp only [optGe, decide_eq_true_eq] at hR
  simpa using hR

/-- C7 witness: the spec's P3 example, with the filter characterisation
instantiated at score 0.9. -/
theorem intent_sort_descending_stable_witness :
    (["refund", "praise", "bug_report"] : List String).length
        = ([mkRat 2 10, mkRat 9 10, mkRat 6 10] : List ℚ).length
    ∧ (getIntentCore ⟨some ["refund", "praise", "bug_report"],
          some [mkRat 2 10, mkRat 9 10, mkRat 6 10]⟩).Pairwise
        (fun a b => (Entry.score b).getD 0 ≤ (Entry.score a).getD 0)
    ∧ (getIntentCore ⟨some ["refund", "praise", "bug_report"],
          some [mkRat 2 10, mkRat 9 10, mkRat 6 10]⟩).filter
          (fun e => Entry.score e == some (mkRat 9 10))
        = (pairWithScores [mkRat 2 10, mkRat 9 10, mkRat 6 10]
            ["refund", "praise", "bug_report"] 0).filter
          (fun e => Entry.score e == some (mkRat 9 10)) :=
  ⟨rfl,
   (intent_sort_descending_stable ["refund", "praise", "bug_report"]
     [mkRat 2 10, mkRat 9 10, mkRat 6 10] rfl).2.2.1,
   (intent_sort_descending_stable ["refund", "praise", "bug_report"]
     [mkRat 2 10, mkRat 9 10, mkRat 6 10] rfl).2.2.2 (mkRat 9 10)⟩

/-- C6: a failing remote call (non-2xx response) makes `analyze` fail
with that call's error, unchanged and carrying the HTTP status and
response body text, and no partial result is returned: a failing
sentiment call aborts everything, and a failing intent call aborts
everything even when the sentiment call succeeded. -/
theorem analyze_propagates_remote_error (text : String) (sres : HttpResp (List SentItem))
    (ires : HttpResp IntentResponse) :
    (sres.ok = false →
      analyze text sres ires = Except.error (AnalyzerError.remote sres.status sres.text))
    ∧ (∀ s, getSentiment sres = Except.ok s → ires.ok = false →
      analyze text sres ires = Except.error (AnalyzerError.remote ires.status ires.text)) := by
  constructor
  · intro h
    simp [analyze, getSentiment, getIntent, callModel, h]
  · intro s hs h
    unfold analyze
    rw [hs]
    simp [getIntent, callModel, h]

/-- C6 witness: an HTTP 500 on either call aborts the analysis with the
status-500 error. -/
theorem analyze_propagates_remote_error_witness :
    analyze "x" ⟨false, 500, "boom", []⟩ ⟨true, 200, "", ⟨none, none⟩⟩
        = Except.error (AnalyzerError.remote 500 "boom")
    ∧ analyze "x" ⟨true, 200, "", [SentItem.ent ⟨"neg", none⟩]⟩ ⟨false, 500, "boom", ⟨none, none⟩⟩
        = Except.error (AnalyzerError.remote 500 "boom") :=
  ⟨(analyze_propagates_remote_error "x" ⟨false, 500, "boom", []⟩
      ⟨true, 200, "", ⟨none, none⟩⟩).1 rfl,
   (analyze_propagates_remote_error "x" ⟨true, 200, "", [SentItem.ent ⟨"neg", none⟩]⟩
      ⟨false, 500, "boom", ⟨none, none⟩⟩).2 ⟨some "neg", none⟩ rfl rfl⟩

/-- C8: when both remote calls succeed, `analyze` returns the record
whose `input` is the original text, whose `sentiment` is the full
extractor result, whose `intents_ranked` is exactly the first 5 entries
of the ranked intents, and whose `feedback_bucket` is the bucketer
applied to the sentiment label and the full, untruncated ranked list. -/
theorem analyze_result_assembly (text : String) (sres : HttpResp (List SentItem))
    (ires : HttpResp IntentResponse) (s : SentimentResult)
    (hs : getSentiment sres = Except.ok s) (hi : ires.ok = true) :
    analyze text sres ires = Except.ok
      ⟨text, s, (getIntentCore ires.json).take 5,
        getFeedbackBucket s.label (getIntentCore ires.json)⟩ := by
  unfold analyze
  rw [hs]
  simp [getIntent, callModel, hi]

/-- C8 witness: a concrete successful run assembles exactly this
record. -/
theorem analyze_result_assembly_witness :
    analyze "hello" ⟨true, 200, "", [SentItem.ent ⟨"neg", none⟩]⟩
        ⟨true, 200, "", ⟨some ["praise"], none⟩⟩
      = Except.ok ⟨"hello", ⟨some "neg", none⟩, [⟨"praise", none⟩], "other"⟩ :=
  analyze_result_assembly "hello" ⟨true, 200, "", [SentItem.ent ⟨"neg", none⟩]⟩
    ⟨true, 200, "", ⟨some ["praise"], none⟩⟩ ⟨some "neg", none⟩ rfl rfl

/-- C9: once the remote responses are fixed, `analyze` is deterministic:
two successful runs on the same text and the same responses return equal
records. -/
theorem analyze_deterministic (text : String) (sres : HttpResp (List SentItem))
    (ires : HttpResp IntentResponse) (r₁ r₂ : AnalysisResult)
    (h₁ : analyze text sres ires = Except.ok r₁)
    (h₂ : analyze text sres ires = Except.ok r₂) : r₁ = r₂ := by
  rw [h₁] at h₂
  exact Except.ok.inj h₂

/-- C9 witness: two identical concrete runs produce the same record. -/
theorem analyze_deterministic_witness :
    analyze "x" ⟨true, 200, "", [SentItem.ent ⟨"neg", none⟩]⟩
        ⟨true, 200, "", ⟨some ["praise"], none⟩⟩
      = Except.ok ⟨"x", ⟨some "neg", none⟩, [⟨"praise", none⟩], "other"⟩
    ∧ (⟨"x", ⟨some "neg", none⟩, [⟨"praise", none⟩], "other"⟩ : AnalysisResult)
      = ⟨"x", ⟨some "neg", none⟩, [⟨"praise", none⟩], "other"⟩ :=
  ⟨rfl,
   analyze_deterministic "x" ⟨true, 200, "", [SentItem.ent ⟨"neg", none⟩]⟩
     ⟨true, 200, "", ⟨some ["praise"], none⟩⟩
     ⟨"x", ⟨some "neg", none⟩, [⟨"praise", none⟩], "other"⟩
     ⟨"x", ⟨some "neg", none⟩, [⟨"praise", none⟩], "other"⟩ rfl rfl⟩

end Analyzer
